import Mathlib

/-!
Shallow embedding of the iroh-P2P chat client (`src/src/main.rs`): the
invitation-ticket codec, the chat wire-message codec, the nickname
directory, the receive loop (`subscribe_loop`), the broadcast loop in
`main`, and the order of the startup actions of `main`.

Modelling conventions.  The transport library's opaque leaf types
(`TopicId`, `NodeId`, socket addresses, relay URLs) are modelled by their
serde-visible content: the two 32-byte identifiers as byte lists, the
address hints as plain strings.  `serde_json` text printing/parsing is
modelled at the level of a JSON value tree `Json`: the `encode*`
functions mirror the derived `Serialize` implementations (struct -> object
with the fields in declaration order, externally tagged enum -> single-key
object), the `decode*` functions the derived `Deserialize` ones (field
lookup by name, so field order is irrelevant and unknown fields are
ignored, as serde does), so every decoder is a total function into
`Option`, `none` playing the role of `serde_json`'s `Err`.  Blocking I/O
(the gossip event stream, stdin lines, the OpenHAB HTTP fetch) enters the
model as explicit input lists / oracle arguments.
-/

set_option linter.dupNamespace false

/-- A JSON value, the target of `serde_json` serialization. -/
inductive Json where
  | null : Json
  | str : String → Json
  | num : Nat → Json
  | arr : List Json → Json
  | obj : List (String × Json) → Json

/-- `iroh::NodeId` (an ed25519 public key), modelled as its 32-byte content. -/
abbrev NodeId := List Nat

/-- `iroh_gossip::proto::TopicId`, a 32-byte room identifier. -/
abbrev TopicId := List Nat

/-- `iroh::NodeAddr`: a node identity plus transport address hints. -/
structure NodeAddr where
  node_id : NodeId
  relay_url : Option String
  direct_addresses : List String
deriving DecidableEq

/-- `struct Ticket { topic: TopicId, nodes: Vec<NodeAddr> }` from `main.rs`. -/
structure Ticket where
  topic : TopicId
  nodes : List NodeAddr
deriving DecidableEq

/-- The wire `enum Message` from `main.rs`: `AboutMe { from, name }` and
`Message { from, text }` (the latter is the spec's `Chat` variant). -/
inductive Message where
  | AboutMe (from_ : NodeId) (name : String)
  | Message (from_ : NodeId) (text : String)
deriving DecidableEq

/-- A well-formed 32-byte identifier: exactly 32 entries, each a byte. -/
def validId (l : List Nat) : Prop := l.length = 32 ∧ ∀ b ∈ l, b < 256

instance (l : List Nat) : Decidable (validId l) :=
  inferInstanceAs (Decidable (l.length = 32 ∧ ∀ b ∈ l, b < 256))

/-- A well-formed `NodeAddr`: its node id is a 32-byte identifier. -/
def validNodeAddr (a : NodeAddr) : Prop := validId a.node_id

instance (a : NodeAddr) : Decidable (validNodeAddr a) :=
  inferInstanceAs (Decidable (validId a.node_id))

/-- A well-formed `Ticket`: valid topic and valid node addresses. -/
def validTicket (t : Ticket) : Prop :=
  validId t.topic ∧ ∀ a ∈ t.nodes, validNodeAddr a

instance (t : Ticket) : Decidable (validTicket t) :=
  inferInstanceAs (Decidable (validId t.topic ∧ ∀ a ∈ t.nodes, validNodeAddr a))

/-- A well-formed `Message`: its sender id is a 32-byte identifier. -/
def validMessage : Message → Prop
  | Message.AboutMe f _ => validId f
  | Message.Message f _ => validId f

instance (m : Message) : Decidable (validMessage m) := by
  cases m <;> exact inferInstanceAs (Decidable (validId _))

/-- Serde serialization of a `[u8; 32]` identifier: a JSON array of numbers. -/
def encodeBytes (l : List Nat) : Json := Json.arr (l.map Json.num)

/-- Derived `Serialize` for `NodeAddr` (fields in declaration order). -/
def encodeNodeAddr (a : NodeAddr) : Json :=
  Json.obj
    [("node_id", encodeBytes a.node_id),
     ("relay_url", match a.relay_url with | none => Json.null | some u => Json.str u),
     ("direct_addresses", Json.arr (a.direct_addresses.map Json.str))]

/-- Derived `Serialize` for `Ticket`; together with `serde_json::to_string`
this is the `encode` of the shared ticket line in `main`. -/
def encodeTicket (t : Ticket) : Json :=
  Json.obj
    [("topic", encodeBytes t.topic),
     ("nodes", Json.arr (t.nodes.map encodeNodeAddr))]

/-- Derived `Serialize` for the externally tagged `Message` enum; together
with `serde_json::to_vec` this is `Message::to_vec` (total: the Rust side's
`expect` can never fire on a well-formed value). -/
def encodeMessage : Message → Json
  | Message.AboutMe f n =>
      Json.obj [("AboutMe", Json.obj [("from", encodeBytes f), ("name", Json.str n)])]
  | Message.Message f t =>
      Json.obj [("Message", Json.obj [("from", encodeBytes f), ("text", Json.str t)])]

/-- Deserialize one byte: a JSON number below 256. -/
def decodeByte : Json → Option Nat
  | Json.num n => if n < 256 then some n else none
  | _ => none

/-- Deserialize a sequence of bytes, failing on the first non-byte. -/
def decodeByteList : List Json → Option (List Nat)
  | [] => some []
  | j :: js => do
      let b ← decodeByte j
      let bs ← decodeByteList js
      some (b :: bs)

/-- Deserialize a `[u8; 32]` identifier: exactly 32 bytes. -/
def decodeBytes : Json → Option (List Nat)
  | Json.arr js => do
      let bs ← decodeByteList js
      if bs.length = 32 then some bs else none
  | _ => none

/-- Serde field access: first binding of the key in the JSON object. -/
def jLookup (fields : List (String × Json)) (k : String) : Option Json :=
  match fields with
  | [] => none
  | (k', v) :: rest => if k' = k then some v else jLookup rest k

/-- Deserialize the optional relay URL field (a missing field is `None`,
as serde treats absent `Option` fields). -/
def decodeRelay : Option Json → Option (Option String)
  | none => some none
  | some Json.null => some none
  | some (Json.str u) => some (some u)
  | some _ => none

/-- Deserialize a list of address strings. -/
def decodeStrList : List Json → Option (List String)
  | [] => some []
  | Json.str s :: js => (decodeStrList js).map (fun rest => s :: rest)
  | _ => none

/-- Derived `Deserialize` for `NodeAddr`. -/
def decodeNodeAddr : Json → Option NodeAddr
  | Json.obj fs => do
      let jid ← jLookup fs "node_id"
      let nid ← decodeBytes jid
      let rel ← decodeRelay (jLookup fs "relay_url")
      let jda ← jLookup fs "direct_addresses"
      let das ← (match jda with
        | Json.arr js => decodeStrList js
        | _ => none)
      some ⟨nid, rel, das⟩
  | _ => none

/-- Deserialize a list of node addresses. -/
def decodeNodeList : List Json → Option (List NodeAddr)
  | [] => some []
  | j :: js => do
      let a ← decodeNodeAddr j
      let rest ← decodeNodeList js
      some (a :: rest)

/-- Derived `Deserialize` for `Ticket`; together with `serde_json::from_str`
this is `Ticket::from_str` (`decode`).  Total into `Option`: `none` models
the `Err` returned on malformed input. -/
def decodeTicket : Json → Option Ticket
  | Json.obj fs => do
      let jt ← jLookup fs "topic"
      let topic ← decodeBytes jt
      let jn ← jLookup fs "nodes"
      let nodes ← (match jn with
        | Json.arr js => decodeNodeList js
        | _ => none)
      some ⟨topic, nodes⟩
  | _ => none

/-- Derived `Deserialize` for the externally tagged `Message` enum; together
with `serde_json::from_slice` this is `Message::from_bytes`.  Total into
`Option`: `none` models the `Err` returned on malformed input, and an
unknown tag falls into the error branch rather than a default variant. -/
def decodeMessage : Json → Option Message
  | Json.obj [(tag, Json.obj fs)] =>
      if tag = "AboutMe" then do
        let jf ← jLookup fs "from"
        let f ← decodeBytes jf
        match jLookup fs "name" with
        | some (Json.str n) => some (Message.AboutMe f n)
        | _ => none
      else if tag = "Message" then do
        let jf ← jLookup fs "from"
        let f ← decodeBytes jf
        match jLookup fs "text" with
        | some (Json.str t) => some (Message.Message f t)
        | _ => none
      else none
  | _ => none

/-- The `names: HashMap<NodeId, String>` of `subscribe_loop`, modelled as an
association list with unique keys. -/
abbrev Directory := List (NodeId × String)

/-- `names.insert(from, name)`: the Directory upsert (`record` in the spec);
overwrites the binding of the key when present, appends it otherwise. -/
def record : Directory → NodeId → String → Directory
  | [], p, n => [(p, n)]
  | (q, m) :: rest, p, n =>
      if q = p then (p, n) :: rest else (q, m) :: record rest p n

/-- `names.get(&from)`: the raw Directory lookup. -/
def dirGet : Directory → NodeId → Option String
  | [], _ => none
  | (q, m) :: rest, p => if q = p then some m else dirGet rest p

/-- Lower-case hex digit of a value below 16. -/
def hexDigit (n : Nat) : Char :=
  if n < 10 then Char.ofNat (48 + n) else Char.ofNat (87 + n)

/-- The two hex digits of one byte. -/
def hexByte (b : Nat) : List Char := [hexDigit (b / 16), hexDigit (b % 16)]

/-- Lower-case hex rendering of a byte sequence. -/
def hexEncode (l : List Nat) : String := String.mk ((l.map hexByte).flatten)

/-- `NodeId::fmt_short()`: the short rendering of a node id, the hex form of
its first five bytes. -/
def fmt_short (p : NodeId) : String := hexEncode (p.take 5)

/-- `node_id.to_string()`: the full rendering of a node id. -/
def nodeIdToString (p : NodeId) : String := hexEncode p

/-- `names.get(&from).map_or_else(|| from.fmt_short(), String::to_string)`:
the Directory `resolve` of the spec — the recorded nickname when present,
else the short rendering of the identity. -/
def resolve (d : Directory) (p : NodeId) : String :=
  match dirGet d p with
  | some n => n
  | none => fmt_short p

/-- A sequence of `record` calls applied in order (`HashMap::insert` folds). -/
def applyOps (d : Directory) (ops : List (NodeId × String)) : Directory :=
  ops.foldl (fun d' op => record d' op.1 op.2) d

/-- Spec-side description for the Directory claim: the name given by the most
recent `record(p, _)` operation in the sequence, if any. -/
def lastRecorded : List (NodeId × String) → NodeId → Option String
  | [], _ => none
  | (q, n) :: ops, p =>
      match lastRecorded ops p with
      | some m => some m
      | none => if q = p then some n else none

/-- One inbound item of the gossip event stream, as seen by `subscribe_loop`.
`received j st` is `Event::Gossip(GossipEvent::Received(msg))` whose content
parses to the JSON value `j`; `st` is the OpenHAB state string the handler
fetches for that message (an oracle input, since the fetch is external HTTP
I/O — on fetch failure the code substitutes an error text, so some string is
always available).  `other` covers every other event variant, which the
`if let` silently skips. -/
inductive GEvent where
  | received (payload : Json) (ohState : String)
  | other

/-- An event the loop can process without a decode error. -/
def eventOk : GEvent → Prop
  | GEvent.received j _ => (decodeMessage j).isSome = true
  | GEvent.other => True

instance : (e : GEvent) → Decidable (eventOk e)
  | GEvent.received j _ => inferInstanceAs (Decidable ((decodeMessage j).isSome = true))
  | GEvent.other => inferInstanceAs (Decidable True)

/-- `subscribe_loop` from `main.rs`, run over a finite prefix of the event
stream: returns the printed lines and `some` final Directory, or the lines
printed so far and `none` when a payload fails to decode (the `?` that makes
the whole loop return `Err`). -/
def subscribe_loop : List GEvent → Directory → List String × Option Directory
  | [], names => ([], some names)
  | GEvent.other :: evs, names => subscribe_loop evs names
  | GEvent.received j st :: evs, names =>
      match decodeMessage j with
      | none => ([], none)
      | some (Message.AboutMe f n) =>
          let out := "> " ++ fmt_short f ++ " is now known as " ++ n
          let r := subscribe_loop evs (record names f n)
          (out :: r.1, r.2)
      | some (Message.Message f t) =>
          let out := resolve names f ++ ": " ++ t ++ " - OpenHAB state: " ++ st
          let r := subscribe_loop evs names
          (out :: r.1, r.2)

/-- The `(from, name)` pairs of the decodable `AboutMe` payloads of an event
list, in order; `Chat` payloads and non-message events contribute nothing. -/
def aboutMeOps : List GEvent → List (NodeId × String)
  | [] => []
  | GEvent.other :: evs => aboutMeOps evs
  | GEvent.received j _ :: evs =>
      match decodeMessage j with
      | some (Message.AboutMe f n) => (f, n) :: aboutMeOps evs
      | _ => aboutMeOps evs

/-- The broadcast loop of `main` (`while let Some(text) = line_rx.recv()`),
run over a finite list of inputs.  Each input is the pumped line (already
trimmed by `input_loop`) paired with the OpenHAB state string fetched for it
(oracle input, as in `GEvent`).  Returns the payloads handed to
`sender.broadcast` and the local echo lines, in order. -/
def broadcast_loop (self : NodeId) : List (String × String) → List Json × List String
  | [] => ([], [])
  | (line, st) :: rest =>
      let text := line ++ " - OpenHAB state: " ++ st
      let message := Message.Message self text
      let r := broadcast_loop self rest
      (encodeMessage message :: r.1, ("> sent: " ++ text) :: r.2)

/-- The await points of `main` between join and the steady-state loops, in
source order (a nickname being configured, so the `AboutMe` branch is
taken). -/
inductive StartupAction where
  | subscribeAndJoin
  | printConnected
  | broadcastAboutMe
  | spawnReceiveLoop
  | spawnInputPump
  | runBroadcastLoop
deriving DecidableEq

/-- The startup order of `main`: `subscribe_and_join` is awaited, then
`> connected!` is printed, then the startup `AboutMe` is broadcast, then
`subscribe_loop` is spawned, then the input thread, then the broadcast loop
runs. -/
def startup_sequence : List StartupAction :=
  [StartupAction.subscribeAndJoin, StartupAction.printConnected,
   StartupAction.broadcastAboutMe, StartupAction.spawnReceiveLoop,
   StartupAction.spawnInputPump, StartupAction.runBroadcastLoop]

/-- `simplify_ticket` from `main.rs`: the rendering of `nodes[0]`'s id.  The
unguarded index is modelled by `Option`: `none` is the panic on an empty
node list. -/
def simplify_ticket (t : Ticket) : Option String :=
  t.nodes.head?.map (fun a => nodeIdToString a.node_id)

/-- `impl fmt::Display for Ticket`: `"Node ID: {nodes[0].node_id}"`, with the
same unguarded index modelled by `Option`. -/
def ticketDisplay (t : Ticket) : Option String :=
  t.nodes.head?.map (fun a => "Node ID: " ++ nodeIdToString a.node_id)

/-- A concrete 32-byte node id (all zeros), for witnesses. -/
def nid0 : NodeId := List.replicate 32 0

/-- A second concrete 32-byte node id (all ones), for witnesses. -/
def nid1 : NodeId := List.replicate 32 1

/-- A concrete valid ticket, for witnesses. -/
def ticket0 : Ticket :=
  ⟨List.replicate 32 2, [⟨nid0, some "relay.example", ["10.0.0.1:4433"]⟩]⟩
/-! ### Codec lemmas -/

theorem decodeByte_num {b : Nat} (h : b < 256) : decodeByte (Json.num b) = some b := by
  simp [decodeByte, h]

theorem decodeByteList_map (l : List Nat) (h : ∀ b ∈ l, b < 256) :
    decodeByteList (l.map Json.num) = some l := by
  induction l with
  | nil => rfl
  | cons b bs ih =>
      have hb : b < 256 := h b (List.mem_cons_self b bs)
      have ihh := ih (fun x hx => h x (List.mem_cons_of_mem _ hx))
      simp [decodeByteList, decodeByte_num hb, ihh]

theorem decodeBytes_encodeBytes (l : List Nat) (h : validId l) :
    decodeBytes (encodeBytes l) = some l := by
  simp [encodeBytes, decodeBytes, decodeByteList_map l h.2, h.1]

theorem decodeStrList_map (l : List String) :
    decodeStrList (l.map Json.str) = some l := by
  induction l with
  | nil => rfl
  | cons s ss ih => simp [decodeStrList, ih]

theorem decodeNodeAddr_encodeNodeAddr (a : NodeAddr) (h : validNodeAddr a) :
    decodeNodeAddr (encodeNodeAddr a) = some a := by
  obtain ⟨nid, rel, das⟩ := a
  rcases rel with _ | u <;>
    simp [encodeNodeAddr, decodeNodeAddr, jLookup, decodeRelay,
      decodeBytes_encodeBytes nid h, decodeStrList_map]

theorem decodeNodeList_map (l : List NodeAddr) (h : ∀ a ∈ l, validNodeAddr a) :
    decodeNodeList (l.map encodeNodeAddr) = some l := by
  induction l with
  | nil => rfl
  | cons a rest ih =>
      have ha := h a (List.mem_cons_self a rest)
      have ihh := ih (fun x hx => h x (List.mem_cons_of_mem _ hx))
      simp [decodeNodeList, decodeNodeAddr_encodeNodeAddr a ha, ihh]

theorem decodeTicket_encodeTicket (t : Ticket) (h : validTicket t) :
    decodeTicket (encodeTicket t) = some t := by
  obtain ⟨topic, nodes⟩ := t
  simp [encodeTicket, decodeTicket, jLookup,
    decodeBytes_encodeBytes topic h.1, decodeNodeList_map nodes h.2]

theorem decodeMessage_encodeMessage (m : Message) (h : validMessage m) :
    decodeMessage (encodeMessage m) = some m := by
  cases m with
  | AboutMe f n =>
      simp [encodeMessage, decodeMessage, jLookup, decodeBytes_encodeBytes f h]
  | Message f t =>
      simp [encodeMessage, decodeMessage, jLookup, decodeBytes_encodeBytes f h]

/-! ### Decoder soundness: a successful decode only yields well-formed values -/

theorem decodeByte_sound {j : Json} {b : Nat} (h : decodeByte j = some b) : b < 256 := by
  cases j <;> simp [decodeByte] at h
  case num n =>
    rcases h with ⟨h1, h2⟩
    omega

theorem decodeByteList_sound {js : List Json} {l : List Nat}
    (h : decodeByteList js = some l) : ∀ b ∈ l, b < 256 := by
  induction js generalizing l with
  | nil =>
      simp [decodeByteList] at h
      subst h
      simp
  | cons j js ih =>
      simp [decodeByteList, Option.bind_eq_some] at h
      rcases h with ⟨b, hb, bs, hbs, rfl⟩
      intro x hx
      rcases List.mem_cons.mp hx with rfl | hx
      · exact decodeByte_sound hb
      · exact ih hbs x hx

theorem decodeBytes_sound {j : Json} {l : List Nat}
    (h : decodeBytes j = some l) : validId l := by
  cases j <;> simp [decodeBytes, Option.bind_eq_some] at h
  case arr js => exact ⟨h.2, decodeByteList_sound h.1⟩

theorem decodeNodeAddr_sound {j : Json} {a : NodeAddr}
    (h : decodeNodeAddr j = some a) : validNodeAddr a := by
  cases j <;> simp [decodeNodeAddr, Option.bind_eq_some] at h
  case obj fs =>
    rcases h with ⟨jid, -, nid, hnid, rel, -, jda, -, das, -, rfl⟩
    exact decodeBytes_sound hnid

theorem decodeNodeList_sound {js : List Json} {l : List NodeAddr}
    (h : decodeNodeList js = some l) : ∀ a ∈ l, validNodeAddr a := by
  induction js generalizing l with
  | nil =>
      simp [decodeNodeList] at h
      subst h
      simp
  | cons j js ih =>
      simp [decodeNodeList, Option.bind_eq_some] at h
      rcases h with ⟨a, ha, rest, hrest, rfl⟩
      intro x hx
      rcases List.mem_cons.mp hx with rfl | hx
      · exact decodeNodeAddr_sound ha
      · exact ih hrest x hx

theorem decodeTicket_sound {j : Json} {t : Ticket}
    (h : decodeTicket j = some t) : validTicket t := by
  cases j <;> simp [decodeTicket, Option.bind_eq_some] at h
  case obj fs =>
    rcases h with ⟨jt, -, topic, htopic, jn, -, nodes, hnodes, rfl⟩
    refine ⟨decodeBytes_sound htopic, ?_⟩
    rcases jn with _ | _ | _ | js | _ <;> simp at hnodes
    exact decodeNodeList_sound hnodes

theorem decodeMessage_sound {j : Json} {m : Message}
    (h : decodeMessage j = some m) : validMessage m := by
  rw [decodeMessage.eq_def] at h
  split at h
  · rename_i tag fs
    split_ifs at h
    · simp [Option.bind_eq_some] at h
      rcases h with ⟨jf, -, f, hf, h⟩
      split at h
      · cases h
        exact decodeBytes_sound hf
      · exact absurd h (by simp)
    · simp [Option.bind_eq_some] at h
      rcases h with ⟨jf, -, f, hf, h⟩
      split at h
      · cases h
        exact decodeBytes_sound hf
      · exact absurd h (by simp)
  · exact absurd h (by simp)

/-! ### Directory lemmas -/

theorem dirGet_record (d : Directory) (p : NodeId) (n : String) (q : NodeId) :
    dirGet (record d p n) q = if p = q then some n else dirGet d q := by
  induction d with
  | nil => simp [record, dirGet]
  | cons hd tl ih =>
      obtain ⟨k, v⟩ := hd
      by_cases hkp : k = p
      · subst hkp
        by_cases hpq : k = q <;> simp [record, dirGet, hpq]
      · by_cases hkq : k = q
        · subst hkq
          have hpq : ¬ p = k := fun h => hkp h.symm
          simp [record, dirGet, hkp, hpq]
        · simp [record, dirGet, hkp, hkq, ih]

theorem dirGet_applyOps (ops : List (NodeId × String)) (d : Directory) (p : NodeId) :
    dirGet (applyOps d ops) p =
      match lastRecorded ops p with
      | some n => some n
      | none => dirGet d p := by
  induction ops generalizing d with
  | nil => simp [applyOps, lastRecorded]
  | cons op ops ih =>
      obtain ⟨q, n⟩ := op
      have hstep : applyOps d ((q, n) :: ops) = applyOps (record d q n) ops := rfl
      rw [hstep, ih]
      cases hlast : lastRecorded ops p with
      | some m => simp [lastRecorded, hlast]
      | none =>
          by_cases hqp : q = p <;>
            simp [lastRecorded, hlast, hqp, dirGet_record]

/-! ### The fallback rendering is never empty -/

theorem hexEncode_ne_empty {l : List Nat} (h : l ≠ []) : hexEncode l ≠ "" := by
  rcases l with _ | ⟨b, rest⟩
  · exact absurd rfl h
  · intro hcontra
    have hdata : ((((b :: rest).map hexByte).flatten : List Char)) = [] := by
      have := congrArg String.data hcontra
      simpa [hexEncode] using this
    simp [hexByte] at hdata

theorem fmt_short_ne_empty {p : NodeId} (h : validId p) : fmt_short p ≠ "" := by
  apply hexEncode_ne_empty
  have : p ≠ [] := by
    intro hnil
    rw [hnil] at h
    simp [validId] at h
  rcases p with _ | ⟨b, rest⟩
  · exact absurd rfl this
  · simp [List.take]

/-! ### Claim theorems -/

/-- C1 counterexample: with an empty pumped line and fetched OpenHAB state
"ON", the payload handed to broadcast is the serialization of a chat text
" - OpenHAB state: ON", not of the zero-length text the claim requires. -/
theorem C1_cex :
    (broadcast_loop nid0 [("", "ON")]).1 =
      [encodeMessage (Message.Message nid0 " - OpenHAB state: ON")] ∧
    Message.Message nid0 " - OpenHAB state: ON" ≠ Message.Message nid0 "" :=
  ⟨rfl, by decide⟩

/-- C1 (amended): for every pumped line and fetched OpenHAB state, the
Broadcast Loop builds `Chat{from: self, text: line ++ " - OpenHAB state: "
++ state}`, serializes it, submits it to broadcast, and echoes
`"> sent: <that text>"` locally, one payload and one echo per line, in
order. -/
theorem C1_appends_state (self : NodeId) (inputs : List (String × String)) :
    broadcast_loop self inputs =
      (inputs.map (fun ls =>
          encodeMessage (Message.Message self (ls.1 ++ " - OpenHAB state: " ++ ls.2))),
       inputs.map (fun ls => "> sent: " ++ (ls.1 ++ " - OpenHAB state: " ++ ls.2))) := by
  induction inputs with
  | nil => rfl
  | cons p rest ih =>
      obtain ⟨line, st⟩ := p
      simp [broadcast_loop, ih]

/-- C2 counterexample: with peer `nid1` recorded as "Bob", a received
`Chat{text: "hello"}` handled with fetched OpenHAB state "ON" prints
"Bob: hello - OpenHAB state: ON", not the "Bob: hello" the claim requires. -/
theorem C2_cex :
    (subscribe_loop
        [GEvent.received (encodeMessage (Message.Message nid1 "hello")) "ON"]
        [(nid1, "Bob")]).1 = ["Bob: hello - OpenHAB state: ON"] ∧
    "Bob: hello - OpenHAB state: ON" ≠ "Bob: hello" :=
  ⟨rfl, by decide⟩

/-- C2 (amended): for every received `Chat` event with sender `f` and text
`t`, handled with fetched OpenHAB state `st`, the Receive Loop emits the
line `resolve(f) ++ ": " ++ t ++ " - OpenHAB state: " ++ st`; in
particular after B announced "Bob" and sends `Chat{text: "hello"}`, the
receiver prints `"Bob: hello - OpenHAB state: " ++ st`. -/
theorem C2_chat_line :
    (∀ (d : Directory) (f : NodeId) (t st : String) (evs : List GEvent), validId f →
        subscribe_loop (GEvent.received (encodeMessage (Message.Message f t)) st :: evs) d =
          ((resolve d f ++ ": " ++ t ++ " - OpenHAB state: " ++ st) ::
            (subscribe_loop evs d).1,
           (subscribe_loop evs d).2)) ∧
    (∀ st : String,
        subscribe_loop
          [GEvent.received (encodeMessage (Message.AboutMe nid1 "Bob")) st,
           GEvent.received (encodeMessage (Message.Message nid1 "hello")) st] [] =
          (["> " ++ fmt_short nid1 ++ " is now known as Bob",
            "Bob: hello - OpenHAB state: " ++ st], some [(nid1, "Bob")])) := by
  constructor
  · intro d f t st evs hf
    have hm := decodeMessage_encodeMessage (Message.Message f t) hf
    simp [subscribe_loop, hm]
  · intro st
    rfl

/-- C2 witness: the general chat-line shape applied at a concrete directory,
sender, text, state and empty remaining stream. -/
theorem C2_witness :
    validId nid1 ∧
    subscribe_loop
        [GEvent.received (encodeMessage (Message.Message nid1 "hello")) "ON"]
        [(nid1, "Bob")] =
      ((resolve [(nid1, "Bob")] nid1 ++ ": " ++ "hello" ++ " - OpenHAB state: " ++ "ON") ::
        (subscribe_loop [] [(nid1, "Bob")]).1,
       (subscribe_loop [] [(nid1, "Bob")]).2) :=
  ⟨by decide, C2_chat_line.1 [(nid1, "Bob")] nid1 "hello" "ON" [] (by decide)⟩

/-- C3 counterexample: in the startup order of `main`, the Receive Loop
(`subscribe_loop`) is spawned strictly after the startup `AboutMe`
broadcast, so at the moment the broadcast fires it is neither already
running nor starting concurrently. -/
theorem C3_cex :
    ¬ (startup_sequence.indexOf StartupAction.spawnReceiveLoop ≤
        startup_sequence.indexOf StartupAction.broadcastAboutMe) := by
  decide

/-- C3 (amended): the startup `AboutMe` broadcast fires only after join
success is confirmed by the transport, and the Receive Loop is spawned only
after that broadcast — hence also after join confirmation, so no event is
consumed by the session before join success; covering the startup window is
left to the transport's buffering on the receiver handle obtained at join,
not to the loop already running. -/
theorem C3_startup_order :
    startup_sequence.indexOf StartupAction.subscribeAndJoin <
      startup_sequence.indexOf StartupAction.broadcastAboutMe ∧
    startup_sequence.indexOf StartupAction.broadcastAboutMe <
      startup_sequence.indexOf StartupAction.spawnReceiveLoop := by
  decide

/-- C4: decoding the canonical serialization of any valid Ticket yields the
Ticket back (validity is the image of the Rust types: 32-byte identifiers
with byte-sized entries). -/
theorem C4_ticket_roundtrip (t : Ticket) (h : validTicket t) :
    decodeTicket (encodeTicket t) = some t :=
  decodeTicket_encodeTicket t h

/-- C4 witness: the round-trip at a concrete ticket. -/
theorem C4_witness :
    validTicket ticket0 ∧ decodeTicket (encodeTicket ticket0) = some ticket0 :=
  ⟨by decide, C4_ticket_roundtrip ticket0 (by decide)⟩

/-- C5: deserializing the byte serialization of any valid Message yields the
Message back; serialization is a total function on the model's values. -/
theorem C5_message_roundtrip (m : Message) (h : validMessage m) :
    decodeMessage (encodeMessage m) = some m :=
  decodeMessage_encodeMessage m h

/-- C5 witness: the round-trip at a concrete chat message. -/
theorem C5_witness :
    validMessage (Message.Message nid0 "hello") ∧
    decodeMessage (encodeMessage (Message.Message nid0 "hello")) =
      some (Message.Message nid0 "hello") :=
  ⟨by decide, C5_message_roundtrip (Message.Message nid0 "hello") (by decide)⟩

/-- C6: after any sequence of `record` operations, `resolve p` returns the
most recently recorded name for `p` when one exists (last write wins), and
otherwise the deterministic short rendering of the identity, which is never
empty. -/
theorem C6_directory (ops : List (NodeId × String)) (p : NodeId) (hp : validId p) :
    (∀ n, lastRecorded ops p = some n → resolve (applyOps [] ops) p = n) ∧
    (lastRecorded ops p = none →
      resolve (applyOps [] ops) p = fmt_short p ∧ fmt_short p ≠ "") := by
  constructor
  · intro n hn
    simp [resolve, dirGet_applyOps, hn]
  · intro hn
    refine ⟨?_, fmt_short_ne_empty hp⟩
    simp [resolve, dirGet_applyOps, hn, dirGet]

/-- C6 witness: record "Alice" then "Bob" for the same peer; resolve returns
"Bob". -/
theorem C6_witness :
    validId nid0 ∧
    lastRecorded [(nid0, "Alice"), (nid0, "Bob")] nid0 = some "Bob" ∧
    resolve (applyOps [] [(nid0, "Alice"), (nid0, "Bob")]) nid0 = "Bob" :=
  ⟨by decide, rfl,
    (C6_directory [(nid0, "Alice"), (nid0, "Bob")] nid0 (by decide)).1 "Bob" rfl⟩

/-- C7: if the first malformed payload of the stream is reached, the Receive
Loop terminates as a whole with the decode error: the lines emitted are
exactly those of the events before it, and no later event is processed (the
result does not depend on `post`). -/
theorem C7_malformed_fatal (pre : List GEvent) (j : Json) (st : String)
    (post : List GEvent) (hj : decodeMessage j = none) :
    ∀ d : Directory, (∀ e ∈ pre, eventOk e) →
      subscribe_loop (pre ++ GEvent.received j st :: post) d =
        ((subscribe_loop pre d).1, none) := by
  induction pre with
  | nil =>
      intro d _
      simp [subscribe_loop, hj]
  | cons e pre ih =>
      intro d hpre
      have he : eventOk e := hpre e (List.mem_cons_self e pre)
      have hpre' : ∀ x ∈ pre, eventOk x := fun x hx => hpre x (List.mem_cons_of_mem _ hx)
      cases e with
      | other =>
          simpa [subscribe_loop] using ih d hpre'
      | received j' st' =>
          rcases Option.isSome_iff_exists.mp he with ⟨m, hm⟩
          cases m with
          | AboutMe f n =>
              simp [subscribe_loop, hm, ih (record d f n) hpre']
          | Message f t =>
              simp [subscribe_loop, hm, ih d hpre']

/-- C7 witness: one good `AboutMe`, then a malformed payload, then a good
chat message: the loop stops at the malformed payload and the trailing chat
is never printed. -/
theorem C7_witness :
    decodeMessage Json.null = none ∧
    eventOk (GEvent.received (encodeMessage (Message.AboutMe nid1 "Bob")) "ON") ∧
    subscribe_loop
        ([GEvent.received (encodeMessage (Message.AboutMe nid1 "Bob")) "ON"] ++
          GEvent.received Json.null "OFF" ::
            [GEvent.received (encodeMessage (Message.Message nid1 "hello")) "ON"]) [] =
      ((subscribe_loop [GEvent.received (encodeMessage (Message.AboutMe nid1 "Bob")) "ON"] []).1,
       none) :=
  ⟨rfl, by decide,
    C7_malformed_fatal
      [GEvent.received (encodeMessage (Message.AboutMe nid1 "Bob")) "ON"]
      Json.null "OFF"
      [GEvent.received (encodeMessage (Message.Message nid1 "hello")) "ON"]
      rfl [] (by decide)⟩

/-- C8: both decoders are total functions into the error monad: a successful
decode only ever yields a well-formed value, and concrete garbage inputs
land in the error branch rather than panicking or producing a value. -/
theorem C8_decode_total :
    (∀ (j : Json) (m : Message), decodeMessage j = some m → validMessage m) ∧
    (∀ (j : Json) (t : Ticket), decodeTicket j = some t → validTicket t) ∧
    decodeMessage (Json.str "garbage") = none ∧
    decodeTicket (Json.str "not a valid ticket") = none ∧
    decodeMessage Json.null = none ∧
    decodeTicket (Json.obj []) = none :=
  ⟨fun _ _ h => decodeMessage_sound h, fun _ _ h => decodeTicket_sound h,
   rfl, rfl, rfl, rfl⟩

/-- C8 witness: the soundness direction applied at a concrete decodable
input. -/
theorem C8_witness :
    decodeMessage (encodeMessage (Message.AboutMe nid1 "Bob")) =
      some (Message.AboutMe nid1 "Bob") ∧
    validMessage (Message.AboutMe nid1 "Bob") :=
  ⟨rfl, C8_decode_total.1 (encodeMessage (Message.AboutMe nid1 "Bob"))
    (Message.AboutMe nid1 "Bob") rfl⟩

/-- C9: the human-readable rendering of a Ticket (`simplify_ticket` and the
`Display` impl) is defined exactly on tickets with a non-empty node list:
with a first node it renders that node's identity, and on an empty node
list it hits the unguarded `nodes[0]` index (modelled `none` = panic). -/
theorem C9_rendering_nodes_head :
    (∀ (t : Ticket) (a : NodeAddr), t.nodes.head? = some a →
        simplify_ticket t = some (nodeIdToString a.node_id) ∧
        ticketDisplay t = some ("Node ID: " ++ nodeIdToString a.node_id)) ∧
    (∀ t : Ticket, t.nodes = [] →
        simplify_ticket t = none ∧ ticketDisplay t = none) := by
  constructor
  · intro t a h
    simp [simplify_ticket, ticketDisplay, h]
  · intro t h
    simp [simplify_ticket, ticketDisplay, h]

/-- C9 witness: both branches at concrete tickets. -/
theorem C9_witness :
    (simplify_ticket ticket0 = some (nodeIdToString nid0) ∧
      ticketDisplay ticket0 = some ("Node ID: " ++ nodeIdToString nid0)) ∧
    (simplify_ticket ⟨List.replicate 32 3, []⟩ = none ∧
      ticketDisplay ⟨List.replicate 32 3, []⟩ = none) :=
  ⟨C9_rendering_nodes_head.1 ticket0 ⟨nid0, some "relay.example", ["10.0.0.1:4433"]⟩ rfl,
   C9_rendering_nodes_head.2 ⟨List.replicate 32 3, []⟩ rfl⟩

/-- C10: on any run of the Receive Loop that ends without a decode error,
the final Directory is the initial one with exactly the decoded `AboutMe`
payloads recorded, in order — `Chat` events and non-message events never
modify it; and a single decodable `Chat` event leaves the Directory
unchanged. -/
theorem C10_chat_frame :
    (∀ (evs : List GEvent) (d d' : Directory),
        (subscribe_loop evs d).2 = some d' → d' = applyOps d (aboutMeOps evs)) ∧
    (∀ (d : Directory) (f : NodeId) (t st : String), validId f →
        (subscribe_loop [GEvent.received (encodeMessage (Message.Message f t)) st] d).2 =
          some d) := by
  constructor
  · intro evs
    induction evs with
    | nil =>
        intro d d' h
        simp [subscribe_loop] at h
        simp [aboutMeOps, applyOps, h]
    | cons e evs ih =>
        intro d d' h
        cases e with
        | other =>
            simp only [subscribe_loop] at h
            simpa [aboutMeOps] using ih d d' h
        | received j st =>
            cases hm : decodeMessage j with
            | none => simp [subscribe_loop, hm] at h
            | some m =>
                cases m with
                | AboutMe f n =>
                    simp [subscribe_loop, hm] at h
                    have := ih (record d f n) d' h
                    simpa [aboutMeOps, hm, applyOps] using this
                | Message f t =>
                    simp [subscribe_loop, hm] at h
                    have := ih d d' h
                    simpa [aboutMeOps, hm] using this
  · intro d f t st hf
    have hm := decodeMessage_encodeMessage (Message.Message f t) hf
    simp [subscribe_loop, hm]

/-- C10 witness: a concrete chat event leaves the Directory unchanged, and a
concrete error-free run ends with exactly its `AboutMe` payloads recorded. -/
theorem C10_witness :
    validId nid0 ∧
    (subscribe_loop [GEvent.received (encodeMessage (Message.Message nid0 "hi")) "ON"]
        [(nid1, "Bob")]).2 = some [(nid1, "Bob")] ∧
    [(nid0, "Zoe")] =
      applyOps [] (aboutMeOps [GEvent.received (encodeMessage (Message.AboutMe nid0 "Zoe")) "ON"]) :=
  ⟨by decide,
   C10_chat_frame.2 [(nid1, "Bob")] nid0 "hi" "ON" (by decide),
   C10_chat_frame.1 [GEvent.received (encodeMessage (Message.AboutMe nid0 "Zoe")) "ON"]
     [] [(nid0, "Zoe")] rfl⟩
